import Mathlib

/-!
Shallow embedding of the STL mesh-generation core of the repository
(`apps/web/lib/server/geometry/stl.ts` and the generator module that imports
it), together with theorems checking the specification's claims.

Modelling conventions:
* JavaScript numbers are modelled as real numbers (`ℝ`).  A dimension entry of
  a `Record<string, number>` is modelled as `Option ℝ`: `none` covers a key
  that is missing (or whose value is non-finite, since `NaN`/`±Infinity` have
  no counterpart in `ℝ`; `asFinite` maps both cases to the fallback).
* `Math.sin`, `Math.cos`, `Math.sqrt`, `Math.pow` are `Real.sin`, `Real.cos`,
  `Real.sqrt` and (monoid or real) power.
* The external `earcut` triangulator (an imported library, excluded from the
  repository core) is a parameter: a list of index triples into the flattened
  point buffer, exactly its documented output contract.
* JavaScript strings are modelled as `List Char`; `Number.prototype.toFixed(6)`
  is an opaque formatting parameter `fmt : ℝ → List Char` of the serializer.
-/

noncomputable section

namespace StlMaker

/-- 3D vector, from `interface Vec3` in `stl.ts`. -/
structure Vec3 where
  x : ℝ
  y : ℝ
  z : ℝ

/-- `type Triangle = [Vec3, Vec3, Vec3]` from `stl.ts`. -/
def Triangle : Type := Vec3 × Vec3 × Vec3

/-- 2D point, from `interface Vec2` in the generator module. -/
structure Vec2 where
  x : ℝ
  y : ℝ

/-- Object classes of the `ModelSpec` contract. -/
inductive ObjectClass where
  | earring
  | pendant
  | ring
  | fidget_token
  | fidget_spinner
deriving DecidableEq

/-- Shape families of the `ModelSpec` contract. -/
inductive Shape where
  | heart
  | circle
  | star
  | rounded_square
  | custom_outline
deriving DecidableEq

/-- The part of `ModelSpec` read by the geometry engine.  `dimensionsMm` is a
JS record: a key either holds a (finite) number or is absent. -/
structure ModelSpec where
  objectClass : ObjectClass
  shape : Shape
  dimensionsMm : String → Option ℝ
  featureFlags : String → Option Bool

/-- JS `value || fallback` on numbers: `0` (and `NaN`, unrepresentable here)
is falsy, every other number is returned unchanged. -/
def jsOr (value fallback : ℝ) : ℝ :=
  if value = 0 then fallback else value

/-- `asFinite` from the generator module: return the value when it is a finite
number, the fallback otherwise (missing key or non-finite value = `none`). -/
def asFinite (value : Option ℝ) (fallback : ℝ) : ℝ :=
  match value with
  | some v => v
  | none => fallback

/-- JS nullish coalescing `a ?? b` on record entries. -/
def coalesce (a b : Option ℝ) : Option ℝ :=
  match a with
  | some v => some v
  | none => b

/-- `normalise` in `stl.ts` divides by `Math.sqrt(x²+y²+z²) || 1`; this is
that divisor. -/
def normaliseDenom (value : Vec3) : ℝ :=
  jsOr (Real.sqrt (value.x * value.x + value.y * value.y + value.z * value.z)) 1

/-- `normalise` from `stl.ts`. -/
def normalise (value : Vec3) : Vec3 :=
  ⟨value.x / normaliseDenom value, value.y / normaliseDenom value,
   value.z / normaliseDenom value⟩

/-- `subtract` from `stl.ts`. -/
def subtract (a b : Vec3) : Vec3 :=
  ⟨a.x - b.x, a.y - b.y, a.z - b.z⟩

/-- `cross` from `stl.ts`. -/
def cross (a b : Vec3) : Vec3 :=
  ⟨a.y * b.z - a.z * b.y, a.z * b.x - a.x * b.z, a.x * b.y - a.y * b.x⟩

/-- `triangleNormal` from `stl.ts`: normalized cross product of the two edge
vectors `B−A`, `C−A`. -/
def triangleNormal (triangle : Triangle) : Vec3 :=
  normalise (cross (subtract triangle.2.1 triangle.1) (subtract triangle.2.2 triangle.1))

/-- `formatVertex` from `stl.ts` (`fmt` models `toFixed(6)`). -/
def formatVertex (fmt : ℝ → List Char) (vertex : Vec3) : List Char :=
  fmt vertex.x ++ ' ' :: fmt vertex.y ++ ' ' :: fmt vertex.z

/-- JS `Array.prototype.join("\n")`. -/
def joinLines : List (List Char) → List Char
  | [] => []
  | [line] => line
  | line :: next :: rest => line ++ '\n' :: joinLines (next :: rest)

/-- The seven lines `writeAsciiStl` pushes for one triangle. -/
def facetLines (fmt : ℝ → List Char) (triangle : Triangle) : List (List Char) :=
  ["  facet normal ".toList ++ formatVertex fmt (triangleNormal triangle),
   "    outer loop".toList,
   "      vertex ".toList ++ formatVertex fmt triangle.1,
   "      vertex ".toList ++ formatVertex fmt triangle.2.1,
   "      vertex ".toList ++ formatVertex fmt triangle.2.2,
   "    endloop".toList,
   "  endfacet".toList]

/-- `writeAsciiStl` from `stl.ts`: header line, seven lines per triangle,
footer line, joined with newlines.  (The facet-normal line interpolates the
three normal components separated by spaces, which is exactly
`formatVertex` applied to the normal.) -/
def writeAsciiStl (fmt : ℝ → List Char) (name : List Char)
    (triangles : List Triangle) : List Char :=
  joinLines (("solid ".toList ++ name) ::
    (triangles.flatMap (facetLines fmt) ++ [("endsolid ".toList ++ name)]))

/-- `circlePoints` from the generator module.  The JS parameter `centre`
defaults to the origin; the default is passed explicitly at each call site
here. -/
def circlePoints (radiusX radiusY : ℝ) (segments : ℕ) (centre : Vec2) : List Vec2 :=
  (List.range segments).map (fun (index : ℕ) =>
    let theta := ((index : ℝ) / (segments : ℝ)) * Real.pi * 2
    (⟨centre.x + radiusX * Real.cos theta, centre.y + radiusY * Real.sin theta⟩ : Vec2))

/-- One term of the shoelace sum in `signedArea`. -/
def shoelaceTerm (points : List Vec2) (index : ℕ) : ℝ :=
  let current := points.getD index ⟨0, 0⟩
  let next := points.getD ((index + 1) % points.length) ⟨0, 0⟩
  current.x * next.y - next.x * current.y

/-- `signedArea` from the generator module: half the cyclic shoelace sum. -/
def signedArea (points : List Vec2) : ℝ :=
  ((List.range points.length).foldl (fun total index => total + shoelaceTerm points index) 0) / 2

/-- `enforceOrientation` from the generator module: reverse the loop when its
winding (negative signed area = clockwise) differs from the requested one. -/
def enforceOrientation (points : List Vec2) (clockwise : Bool) : List Vec2 :=
  let area := signedArea points
  let isClockwise := decide (area < 0)
  if isClockwise = clockwise then points else points.reverse

/-- `roundedSquareOutline` from the generator module: four 8-sample
quarter-arc sweeps around the corner insets. -/
def roundedSquareOutline (width height : ℝ) : List Vec2 :=
  let radius := max 0.8 (min width height * 0.14)
  let stepCount : ℕ := 8
  let halfWidth := width / 2
  let halfHeight := height / 2
  let x := halfWidth - radius
  let y := halfHeight - radius
  let corners : List (Vec2 × ℝ × ℝ) :=
    [((⟨x, y⟩ : Vec2), -(Real.pi / 2), 0),
     ((⟨x, -y⟩ : Vec2), 0, Real.pi / 2),
     ((⟨-x, -y⟩ : Vec2), Real.pi / 2, Real.pi),
     ((⟨-x, y⟩ : Vec2), Real.pi, Real.pi * 3 / 2)]
  corners.flatMap (fun corner =>
    (List.range stepCount).map (fun (step : ℕ) =>
      let ratio := (step : ℝ) / (stepCount : ℝ)
      let theta := corner.2.1 + (corner.2.2 - corner.2.1) * ratio
      (⟨corner.1.x + radius * Real.cos theta, corner.1.y + radius * Real.sin theta⟩ : Vec2)))

/-- `starOutline` from the generator module: 10 vertices alternating outer
and inner radius. -/
def starOutline (width height : ℝ) : List Vec2 :=
  let radiusOuter := min width height / 2
  let radiusInner := radiusOuter * 0.45
  (List.range 10).map (fun (index : ℕ) =>
    let theta := (Real.pi / 5) * (index : ℝ) - Real.pi / 2
    let radius := if index % 2 = 0 then radiusOuter else radiusInner
    (⟨radius * Real.cos theta, radius * Real.sin theta⟩ : Vec2))

/-- Smallest element of a nonempty list (JS `Math.min(...values)`; the `[]`
case never arises at the call sites, which pass 120 samples). -/
def listMin : List ℝ → ℝ
  | [] => 0
  | v :: rest => rest.foldl min v

/-- Largest element of a nonempty list (JS `Math.max(...values)`). -/
def listMax : List ℝ → ℝ
  | [] => 0
  | v :: rest => rest.foldl max v

/-- The 120 raw samples of the parametric heart curve in `heartOutline`
(`x = 16 sin³θ`, `y = 13 cosθ − 5 cos2θ − 2 cos3θ − cos4θ`); the raw list does
not depend on the requested dimensions, so it is named at top level. -/
def heartRaw : List Vec2 :=
  (List.range 120).map (fun (index : ℕ) =>
    let theta := ((index : ℝ) / (120 : ℝ)) * Real.pi * 2
    (⟨16 * Real.sin theta ^ 3,
      13 * Real.cos theta - 5 * Real.cos (2 * theta) - 2 * Real.cos (3 * theta) -
        Real.cos (4 * theta)⟩ : Vec2))

/-- `minX` of the raw heart curve (`Math.min(...raw.map(p => p.x))`). -/
def heartMinX : ℝ := listMin (heartRaw.map (fun point => point.x))

/-- `maxX` of the raw heart curve. -/
def heartMaxX : ℝ := listMax (heartRaw.map (fun point => point.x))

/-- `minY` of the raw heart curve. -/
def heartMinY : ℝ := listMin (heartRaw.map (fun point => point.y))

/-- `maxY` of the raw heart curve. -/
def heartMaxY : ℝ := listMax (heartRaw.map (fun point => point.y))

/-- `sourceWidth = maxX − minX || 1` in `heartOutline`. -/
def heartSourceWidth : ℝ := jsOr (heartMaxX - heartMinX) 1

/-- `sourceHeight = maxY − minY || 1` in `heartOutline`. -/
def heartSourceHeight : ℝ := jsOr (heartMaxY - heartMinY) 1

/-- `heartOutline` from the generator module: 120 samples of the parametric
heart curve, remapped so the result fits the requested width/height. -/
def heartOutline (width height : ℝ) : List Vec2 :=
  heartRaw.map (fun point =>
    (⟨((point.x - heartMinX) / heartSourceWidth - 0.5) * width,
      ((point.y - heartMinY) / heartSourceHeight - 0.5) * height⟩ : Vec2))

/-- `spinnerOutline` from the generator module: tri-lobed modulated radius. -/
def spinnerOutline (width height : ℝ) : List Vec2 :=
  let diameter := min width height
  let samples : ℕ := 180
  let core := diameter * 0.23
  let lobe := diameter * 0.17
  (List.range samples).map (fun (index : ℕ) =>
    let theta := ((index : ℝ) / (samples : ℝ)) * Real.pi * 2
    let pulse := max 0 (Real.cos (theta * 3))
    let radius := core + lobe * pulse ^ (1.7 : ℝ)
    (⟨radius * Real.cos theta, radius * Real.sin theta⟩ : Vec2))

/-- `shapeOutline` from the generator module: dispatch on the shape family;
every shape without a dedicated branch falls through to the 96-sample
ellipse. -/
def shapeOutline (shape : Shape) (width height : ℝ) : List Vec2 :=
  if shape = Shape.heart then heartOutline width height
  else if shape = Shape.star then starOutline width height
  else if shape = Shape.rounded_square then roundedSquareOutline width height
  else circlePoints (width / 2) (height / 2) 96 ⟨0, 0⟩

/-- `toVec3` from the generator module. -/
def toVec3 (point : Vec2) (z : ℝ) : Vec3 :=
  ⟨point.x, point.y, z⟩

/-- The flattened coordinate buffer `extrudePolygon` hands to the external
triangulator (part of the earcut input contract; the triangulator's output is
the `earcutResult` parameter below). -/
def flattenCoords (allPoints : List Vec2) : List ℝ :=
  allPoints.flatMap (fun point => [point.x, point.y])

/-- The two cap triangles `extrudePolygon` emits per triangulator triple:
top cap at `z = thickness` in order `(a,b,c)`, bottom cap at `z = 0` in
reversed order `(a,c,b)`.  Out-of-range indices cannot occur under the
triangulator contract; `getD` keeps the definition total. -/
def capTriangles (thickness : ℝ) (allPoints : List Vec2)
    (earcutResult : List (ℕ × ℕ × ℕ)) : List Triangle :=
  earcutResult.flatMap (fun triple =>
    let a := allPoints.getD triple.1 ⟨0, 0⟩
    let b := allPoints.getD triple.2.1 ⟨0, 0⟩
    let c := allPoints.getD triple.2.2 ⟨0, 0⟩
    [((toVec3 a thickness, toVec3 b thickness, toVec3 c thickness) : Triangle),
     ((toVec3 a 0, toVec3 c 0, toVec3 b 0) : Triangle)])

/-- The two wall triangles `extrudePolygon` emits per loop edge
(`current → next`, wrapping). -/
def wallTriangles (thickness : ℝ) (loop : List Vec2) : List Triangle :=
  (List.range loop.length).flatMap (fun index =>
    let current := loop.getD index ⟨0, 0⟩
    let next := loop.getD ((index + 1) % loop.length) ⟨0, 0⟩
    [((toVec3 current 0, toVec3 next 0, toVec3 next thickness) : Triangle),
     ((toVec3 current 0, toVec3 next thickness, toVec3 current thickness) : Triangle)])

/-- `extrudePolygon` from the generator module, parametric in the external
triangulator's output: orient the loops, emit the cap triangles for every
returned triple, then the wall triangles for every edge of every loop. -/
def extrudePolygon (earcutResult : List (ℕ × ℕ × ℕ)) (outerRaw : List Vec2)
    (holesRaw : List (List Vec2)) (thickness : ℝ) : List Triangle :=
  let outer := enforceOrientation outerRaw false
  let holes := holesRaw.map (fun hole => enforceOrientation hole true)
  let allPoints := outer ++ holes.flatten
  capTriangles thickness allPoints earcutResult ++
    (outer :: holes).flatMap (wallTriangles thickness)

/-- `buildRingTriangles` from the generator module. -/
def buildRingTriangles (earcutResult : List (ℕ × ℕ × ℕ))
    (dimensions : String → Option ℝ) (thickness : ℝ) : List Triangle :=
  let outerDiameter := asFinite (dimensions "outer_diameter") 22
  let bandWidth := asFinite (dimensions "band_width") 4
  let innerDiameter := max (outerDiameter - bandWidth * 2) 8
  let outer := circlePoints (outerDiameter / 2) (outerDiameter / 2) 128 ⟨0, 0⟩
  let inner := circlePoints (innerDiameter / 2) (innerDiameter / 2) 96 ⟨0, 0⟩
  extrudePolygon earcutResult outer [inner] thickness

/-- `buildFlatShapeTriangles` from the generator module.  The JS code pushes
the earring/pendant hanging hole and the spinner centre hole into one array;
the two conditions are disjoint, and the pushes are modelled by appending the
conditional singleton lists in push order. -/
def buildFlatShapeTriangles (earcutResult : List (ℕ × ℕ × ℕ)) (spec : ModelSpec)
    (thickness : ℝ) : List Triangle :=
  let dimensions := spec.dimensionsMm
  let width := asFinite (coalesce (dimensions "width") (dimensions "outer_diameter")) 24
  let height := asFinite (dimensions "height") width
  let outer :=
    if spec.objectClass = ObjectClass.fidget_spinner then spinnerOutline width height
    else shapeOutline spec.shape width height
  let holes : List (List Vec2) :=
    (if spec.objectClass = ObjectClass.earring ∨ spec.objectClass = ObjectClass.pendant then
      let holeDiameter := max 1.6 (asFinite (dimensions "hole_diameter") 2)
      let centreY := height / 2 - max (holeDiameter * 1.2) 2
      [circlePoints (holeDiameter / 2) (holeDiameter / 2) 48 ⟨0, centreY⟩]
    else []) ++
    (if spec.objectClass = ObjectClass.fidget_spinner then
      let centreHoleDiameter := max 6 (asFinite (dimensions "hole_diameter") 22)
      [circlePoints (centreHoleDiameter / 2) (centreHoleDiameter / 2) 64 ⟨0, 0⟩]
    else [])
  extrudePolygon earcutResult outer holes thickness

/-- Characters kept by the file-stem sanitizer (`[A-Za-z0-9_-]`, the
complement of the regex's `[^a-z0-9_-]/i` class). -/
def isAllowedChar (c : Char) : Bool :=
  ('a' ≤ c && c ≤ 'z') || ('A' ≤ c && c ≤ 'Z') || ('0' ≤ c && c ≤ '9') ||
    c = '_' || c = '-'

/-- `replace(/[^a-z0-9_-]+/gi, "-")`: every maximal run of disallowed
characters becomes one hyphen. -/
def replaceBadRuns : List Char → List Char
  | [] => []
  | [c] => [if isAllowedChar c then c else '-']
  | c :: d :: rest =>
    if !isAllowedChar c && !isAllowedChar d then replaceBadRuns (d :: rest)
    else (if isAllowedChar c then c else '-') :: replaceBadRuns (d :: rest)

/-- The second regex pass of `sanitiseFileStem`: collapse hyphen runs to a
single hyphen. -/
def collapseDashes : List Char → List Char
  | [] => []
  | [c] => [c]
  | c :: d :: rest =>
    if c = '-' && d = '-' then collapseDashes (d :: rest)
    else c :: collapseDashes (d :: rest)

/-- `replace(/^-|-$/g, "")`: drop one leading and one trailing hyphen. -/
def trimDashes (l : List Char) : List Char :=
  let l1 := match l with
    | '-' :: rest => rest
    | other => other
  match l1.reverse with
  | '-' :: rest => rest.reverse
  | _ => l1

/-- `sanitiseFileStem` from the generator module: the three regex passes in
order. -/
def sanitiseFileStem (value : List Char) : List Char :=
  trimDashes (collapseDashes (replaceBadRuns value))

/-- The string form of an `objectClass` value (TS union members are string
literals). -/
def renderObjectClass : ObjectClass → List Char
  | ObjectClass.earring => "earring".toList
  | ObjectClass.pendant => "pendant".toList
  | ObjectClass.ring => "ring".toList
  | ObjectClass.fidget_token => "fidget_token".toList
  | ObjectClass.fidget_spinner => "fidget_spinner".toList

/-- The string form of a `shape` value. -/
def renderShape : Shape → List Char
  | Shape.heart => "heart".toList
  | Shape.circle => "circle".toList
  | Shape.star => "star".toList
  | Shape.rounded_square => "rounded_square".toList
  | Shape.custom_outline => "custom_outline".toList

/-- `fileName.replace(/\.stl$/i, "")`: strip a case-insensitive `.stl`
suffix. -/
def stripStlSuffix (s : List Char) : List Char :=
  if (s.reverse.take 4).map Char.toLower = "lts.".toList then (s.reverse.drop 4).reverse
  else s

/-- The triangle list `generateStl` builds (its local `triangles` binding):
clamp the thickness, then dispatch on ring vs. flat shape. -/
def generateTriangles (earcutResult : List (ℕ × ℕ × ℕ)) (spec : ModelSpec) :
    List Triangle :=
  let thickness := max 0.8 (asFinite (spec.dimensionsMm "thickness") 2)
  if spec.objectClass = ObjectClass.ring then
    buildRingTriangles earcutResult spec.dimensionsMm thickness
  else buildFlatShapeTriangles earcutResult spec thickness

/-- The result record of `generateStl`. -/
structure StlOutput where
  fileName : List Char
  stlAscii : List Char

/-- `generateStl` from the generator module. -/
def generateStl (earcutResult : List (ℕ × ℕ × ℕ)) (fmt : ℝ → List Char)
    (spec : ModelSpec) : StlOutput :=
  let triangles := generateTriangles earcutResult spec
  let fileName :=
    sanitiseFileStem (renderObjectClass spec.objectClass ++ '-' :: renderShape spec.shape) ++
      ".stl".toList
  { fileName := fileName
    stlAscii := writeAsciiStl fmt (stripStlSuffix fileName) triangles }

/-- Width of the axis-aligned bounding box of a point list (claim-side
property definition). -/
def bboxWidth (points : List Vec2) : ℝ :=
  listMax (points.map (fun point => point.x)) - listMin (points.map (fun point => point.x))

/-- Height of the axis-aligned bounding box of a point list (claim-side
property definition). -/
def bboxHeight (points : List Vec2) : ℝ :=
  listMax (points.map (fun point => point.y)) - listMin (points.map (fun point => point.y))

/-- Replace one dimension entry of a spec (claim-side helper for the
substitution statements). -/
def setDimension (spec : ModelSpec) (key : String) (value : Option ℝ) : ModelSpec :=
  { spec with dimensionsMm := fun k => if k = key then value else spec.dimensionsMm k }

/-- The earring scenario input of the spec: objectClass=earring, shape=heart,
width=20, height=20, thickness=2, hole_diameter=2. -/
def earringSpec : ModelSpec :=
  { objectClass := ObjectClass.earring
    shape := Shape.heart
    dimensionsMm := fun k =>
      if k = "width" then some 20
      else if k = "height" then some 20
      else if k = "thickness" then some 2
      else if k = "hole_diameter" then some 2
      else none
    featureFlags := fun _ => none }

/-! ### Shared lemmas -/

lemma joinLines_head_prefix (first : List Char) (rest : List (List Char)) :
    ∃ tail, joinLines (first :: rest) = first ++ tail := by
  cases rest with
  | nil => exact ⟨[], (List.append_nil first).symm⟩
  | cons b bs => exact ⟨'\n' :: joinLines (b :: bs), rfl⟩

lemma joinLines_concat_suffix (ls : List (List Char)) (last : List Char) :
    ∃ front, joinLines (ls ++ [last]) = front ++ last := by
  induction ls with
  | nil => exact ⟨[], by simp [joinLines]⟩
  | cons a as ih =>
    obtain ⟨s, hs⟩ := ih
    cases as with
    | nil =>
      refine ⟨a ++ ['\n'], ?_⟩
      show a ++ '\n' :: joinLines [last] = (a ++ ['\n']) ++ last
      simp [joinLines]
    | cons b bs =>
      refine ⟨a ++ '\n' :: s, ?_⟩
      have hsplit : (a :: b :: bs) ++ [last] = a :: ((b :: bs) ++ [last]) := rfl
      rw [hsplit]
      show a ++ '\n' :: joinLines ((b :: bs) ++ [last]) = (a ++ '\n' :: s) ++ last
      rw [hs]
      simp

lemma sum_map_const_two {α : Type} (l : List α) : (l.map (fun _ => 2)).sum = 2 * l.length := by
  induction l with
  | nil => simp
  | cons a l ih => simp [ih]; ring

lemma enforceOrientation_length (points : List Vec2) (clockwise : Bool) :
    (enforceOrientation points clockwise).length = points.length := by
  simp [enforceOrientation, apply_ite List.length]

lemma capTriangles_length (thickness : ℝ) (allPoints : List Vec2)
    (earcutResult : List (ℕ × ℕ × ℕ)) :
    (capTriangles thickness allPoints earcutResult).length = 2 * earcutResult.length := by
  unfold capTriangles
  rw [List.length_flatMap]
  have : (earcutResult.map (List.length ∘ fun triple =>
      let a := allPoints.getD triple.1 ⟨0, 0⟩
      let b := allPoints.getD triple.2.1 ⟨0, 0⟩
      let c := allPoints.getD triple.2.2 ⟨0, 0⟩
      [((toVec3 a thickness, toVec3 b thickness, toVec3 c thickness) : Triangle),
       ((toVec3 a 0, toVec3 c 0, toVec3 b 0) : Triangle)])) =
      earcutResult.map (fun _ => 2) := by
    apply List.map_congr_left
    intro triple _
    rfl
  rw [this, sum_map_const_two]

lemma wallTriangles_length (thickness : ℝ) (loop : List Vec2) :
    (wallTriangles thickness loop).length = 2 * loop.length := by
  unfold wallTriangles
  rw [List.length_flatMap]
  have : ((List.range loop.length).map (List.length ∘ fun index =>
      let current := loop.getD index ⟨0, 0⟩
      let next := loop.getD ((index + 1) % loop.length) ⟨0, 0⟩
      [((toVec3 current 0, toVec3 next 0, toVec3 next thickness) : Triangle),
       ((toVec3 current 0, toVec3 next thickness, toVec3 current thickness) : Triangle)])) =
      (List.range loop.length).map (fun _ => 2) := by
    apply List.map_congr_left
    intro index _
    rfl
  rw [this, sum_map_const_two, List.length_range]

lemma sum_map_wall_length (thickness : ℝ) (loops : List (List Vec2)) :
    (loops.map (List.length ∘ wallTriangles thickness)).sum =
      2 * (loops.map List.length).sum := by
  induction loops with
  | nil => simp
  | cons loop rest ih =>
    simp only [List.map_cons, List.sum_cons, Function.comp_apply,
      wallTriangles_length, ih]
    ring

lemma map_length_enforce (holes : List (List Vec2)) :
    (holes.map (fun hole => enforceOrientation hole true)).map List.length =
      holes.map List.length := by
  simp [List.map_map, Function.comp_def, enforceOrientation_length]

lemma extrudePolygon_length (earcutResult : List (ℕ × ℕ × ℕ)) (outerRaw : List Vec2)
    (holesRaw : List (List Vec2)) (thickness : ℝ) :
    (extrudePolygon earcutResult outerRaw holesRaw thickness).length =
      2 * earcutResult.length + 2 * (outerRaw.length + (holesRaw.map List.length).sum) := by
  unfold extrudePolygon
  rw [List.length_append, capTriangles_length, List.length_flatMap,
    sum_map_wall_length]
  have h1 : ((enforceOrientation outerRaw false :: holesRaw.map (fun hole =>
      enforceOrientation hole true)).map List.length) =
      outerRaw.length :: holesRaw.map List.length := by
    rw [List.map_cons, map_length_enforce, enforceOrientation_length]
  rw [h1, List.sum_cons]

lemma circlePoints_length (radiusX radiusY : ℝ) (segments : ℕ) (centre : Vec2) :
    (circlePoints radiusX radiusY segments centre).length = segments := by
  unfold circlePoints
  rw [List.length_map, List.length_range]

lemma heartRaw_length : heartRaw.length = 120 := by
  unfold heartRaw
  rw [List.length_map, List.length_range]

lemma heartOutline_length (width height : ℝ) :
    (heartOutline width height).length = 120 := by
  unfold heartOutline
  rw [List.length_map, heartRaw_length]

lemma buildRingTriangles_congr (earcutResult : List (ℕ × ℕ × ℕ))
    (d1 d2 : String → Option ℝ) (thickness : ℝ)
    (hod : d1 "outer_diameter" = d2 "outer_diameter")
    (hbw : d1 "band_width" = d2 "band_width") :
    buildRingTriangles earcutResult d1 thickness =
      buildRingTriangles earcutResult d2 thickness := by
  unfold buildRingTriangles
  rw [hod, hbw]

lemma buildFlatShapeTriangles_congr (earcutResult : List (ℕ × ℕ × ℕ))
    (s1 s2 : ModelSpec) (thickness : ℝ)
    (hoc : s1.objectClass = s2.objectClass) (hsh : s1.shape = s2.shape)
    (hw : s1.dimensionsMm "width" = s2.dimensionsMm "width")
    (hod : s1.dimensionsMm "outer_diameter" = s2.dimensionsMm "outer_diameter")
    (hh : s1.dimensionsMm "height" = s2.dimensionsMm "height")
    (hhd : s1.dimensionsMm "hole_diameter" = s2.dimensionsMm "hole_diameter") :
    buildFlatShapeTriangles earcutResult s1 thickness =
      buildFlatShapeTriangles earcutResult s2 thickness := by
  unfold buildFlatShapeTriangles
  dsimp only
  rw [hoc, hsh, hw, hod, hh, hhd]

/-! ### Claim theorems -/

/-- C1 counterexample: with `shape = custom_outline` the outline generator
falls through to the 96-sample ellipse branch, so at width = height = 20 it
does not produce the 120-sample heart loop. -/
theorem c1_counterexample :
    shapeOutline Shape.custom_outline 20 20 ≠ heartOutline 20 20 := by
  intro h
  have hlen := congrArg List.length h
  have h1 : (shapeOutline Shape.custom_outline 20 20).length = 96 := by
    show (circlePoints (20 / 2) (20 / 2) 96 ⟨0, 0⟩).length = 96
    exact circlePoints_length _ _ _ _
  have h2 : (heartOutline 20 20).length = 120 := heartOutline_length 20 20
  rw [h1, h2] at hlen
  exact absurd hlen (by norm_num)

/-- C1 (amended): for every width and height, `shape = custom_outline`
produces the same loop as `shape = circle`, namely the 96-sample ellipse of
radii width/2 and height/2 — not the heart curve. -/
theorem c1_custom_outline_is_circle (width height : ℝ) :
    shapeOutline Shape.custom_outline width height =
      circlePoints (width / 2) (height / 2) 96 ⟨0, 0⟩ ∧
    shapeOutline Shape.custom_outline width height =
      shapeOutline Shape.circle width height :=
  ⟨rfl, rfl⟩

/-- C2 counterexample: the fully degenerate triangle at the origin has zero
cross product of its edge vectors, and its computed facet normal is the zero
vector — whose squared length is 0, not 1 — so the normal is not unit-length. -/
theorem c2_counterexample :
    cross (subtract ((⟨0, 0, 0⟩ : Vec3)) ⟨0, 0, 0⟩) (subtract ((⟨0, 0, 0⟩ : Vec3)) ⟨0, 0, 0⟩) =
      (⟨0, 0, 0⟩ : Vec3) ∧
    ¬((triangleNormal ((⟨0, 0, 0⟩, ⟨0, 0, 0⟩, ⟨0, 0, 0⟩) : Triangle)).x ^ 2 +
        (triangleNormal ((⟨0, 0, 0⟩, ⟨0, 0, 0⟩, ⟨0, 0, 0⟩) : Triangle)).y ^ 2 +
        (triangleNormal ((⟨0, 0, 0⟩, ⟨0, 0, 0⟩, ⟨0, 0, 0⟩) : Triangle)).z ^ 2 = 1) := by
  constructor
  · simp [cross, subtract]
  · have hd : normaliseDenom (⟨0, 0, 0⟩ : Vec3) = 1 := by
      simp [normaliseDenom, jsOr]
    have hn : triangleNormal ((⟨0, 0, 0⟩, ⟨0, 0, 0⟩, ⟨0, 0, 0⟩) : Triangle) =
        (⟨0, 0, 0⟩ : Vec3) := by
      show normalise (cross (subtract (⟨0, 0, 0⟩ : Vec3) ⟨0, 0, 0⟩)
        (subtract (⟨0, 0, 0⟩ : Vec3) ⟨0, 0, 0⟩)) = (⟨0, 0, 0⟩ : Vec3)
      simp [cross, subtract, normalise, hd]
    rw [hn]
    norm_num

/-- C2 (amended): for every triangle whose two edge vectors have a zero cross
product, the computed facet normal is the zero vector (not a unit vector);
the `|| 1` guard makes the normalising divisor 1 in that case, and the
divisor is nonzero for every input, so no division by zero (the JS source of
`NaN` here) ever occurs. -/
theorem c2_degenerate_normal_is_zero :
    (∀ t : Triangle,
      cross (subtract t.2.1 t.1) (subtract t.2.2 t.1) = (⟨0, 0, 0⟩ : Vec3) →
        triangleNormal t = (⟨0, 0, 0⟩ : Vec3)) ∧
    (∀ v : Vec3, normaliseDenom v ≠ 0) := by
  constructor
  · intro t h
    show normalise (cross (subtract t.2.1 t.1) (subtract t.2.2 t.1)) = (⟨0, 0, 0⟩ : Vec3)
    rw [h]
    have hd : normaliseDenom (⟨0, 0, 0⟩ : Vec3) = 1 := by
      simp [normaliseDenom, jsOr]
    simp [normalise, hd]
  · intro v
    unfold normaliseDenom jsOr
    split
    · norm_num
    · next h => exact h

/-- Witness for C2 (amended): the degenerate triangle with all three vertices
at `(1,2,3)` has zero cross product, and the theorem computes its normal to
be the zero vector. -/
theorem c2_witness :
    cross (subtract ((⟨1, 2, 3⟩ : Vec3)) ⟨1, 2, 3⟩) (subtract ((⟨1, 2, 3⟩ : Vec3)) ⟨1, 2, 3⟩) =
      (⟨0, 0, 0⟩ : Vec3) ∧
    triangleNormal ((⟨1, 2, 3⟩, ⟨1, 2, 3⟩, ⟨1, 2, 3⟩) : Triangle) = (⟨0, 0, 0⟩ : Vec3) := by
  have h : cross (subtract ((⟨1, 2, 3⟩ : Vec3)) ⟨1, 2, 3⟩)
      (subtract ((⟨1, 2, 3⟩ : Vec3)) ⟨1, 2, 3⟩) = (⟨0, 0, 0⟩ : Vec3) := by
    simp [cross, subtract]
  exact ⟨h, c2_degenerate_normal_is_zero.1 ((⟨1, 2, 3⟩, ⟨1, 2, 3⟩, ⟨1, 2, 3⟩) : Triangle) h⟩

/-- C4: for every outer loop, list of hole loops, triangulator result of T
triples and thickness, the extruded mesh has exactly
`2·T + 2·(N + Σ hole sizes)` triangles: two cap triangles per triple and two
wall triangles per (wrapping) edge of every loop. -/
theorem c4_triangle_count (earcutResult : List (ℕ × ℕ × ℕ)) (outer : List Vec2)
    (holes : List (List Vec2)) (thickness : ℝ) :
    (extrudePolygon earcutResult outer holes thickness).length =
      2 * earcutResult.length + 2 * (outer.length + (holes.map List.length).sum) :=
  extrudePolygon_length earcutResult outer holes thickness

/-- C6: the ring builder reads outer diameter (default 22) and band width
(default 4), uses inner diameter `max(outerDiameter − 2·bandWidth, 8)`, a
128-sample outer circle of radius outerDiameter/2 and a 96-sample hole circle
of radius innerDiameter/2; with outer_diameter = 22 and band_width = 4 the
inner diameter is 14 (hole radius 7). -/
theorem c6_ring_parameters (earcutResult : List (ℕ × ℕ × ℕ))
    (dims : String → Option ℝ) (thickness : ℝ) :
    buildRingTriangles earcutResult dims thickness =
      extrudePolygon earcutResult
        (circlePoints (asFinite (dims "outer_diameter") 22 / 2)
          (asFinite (dims "outer_diameter") 22 / 2) 128 ⟨0, 0⟩)
        [circlePoints (max (asFinite (dims "outer_diameter") 22 -
            2 * asFinite (dims "band_width") 4) 8 / 2)
          (max (asFinite (dims "outer_diameter") 22 -
            2 * asFinite (dims "band_width") 4) 8 / 2) 96 ⟨0, 0⟩]
        thickness ∧
    buildRingTriangles earcutResult
        (fun k => if k = "outer_diameter" then some 22
          else if k = "band_width" then some 4 else none) thickness =
      extrudePolygon earcutResult (circlePoints 11 11 128 ⟨0, 0⟩)
        [circlePoints 7 7 96 ⟨0, 0⟩] thickness := by
  constructor
  · unfold buildRingTriangles
    rw [mul_comm]
  · unfold buildRingTriangles
    have h14 : max (22 - 4 * 2 : ℝ) 8 = 14 := by
      rw [max_eq_left] <;> norm_num
    simp [asFinite, h14]
    norm_num

/-- C5: the extrusion thickness `generateStl` uses is
`max(0.8, asFinite(thickness, 2))`: replacing the spec's thickness entry by
that clamped value leaves the output unchanged, the clamped value is always
at least 0.8, and a missing (or non-finite) thickness entry yields 2.
`generateStl` is a total function of the spec, so malformed numeric
dimensions never raise. -/
theorem c5_thickness_clamp (earcutResult : List (ℕ × ℕ × ℕ)) (fmt : ℝ → List Char)
    (spec : ModelSpec) :
    generateStl earcutResult fmt spec =
      generateStl earcutResult fmt (setDimension spec "thickness"
        (some (max 0.8 (asFinite (spec.dimensionsMm "thickness") 2)))) ∧
    (0.8 : ℝ) ≤ max 0.8 (asFinite (spec.dimensionsMm "thickness") 2) ∧
    (spec.dimensionsMm "thickness" = none →
      max 0.8 (asFinite (spec.dimensionsMm "thickness") 2) = 2) := by
  refine ⟨?_, le_max_left _ _, ?_⟩
  · have hsame : generateTriangles earcutResult spec =
        generateTriangles earcutResult (setDimension spec "thickness"
          (some (max 0.8 (asFinite (spec.dimensionsMm "thickness") 2)))) := by
      unfold generateTriangles
      dsimp only
      have hread : (setDimension spec "thickness"
          (some (max 0.8 (asFinite (spec.dimensionsMm "thickness") 2)))).dimensionsMm
            "thickness" = some (max 0.8 (asFinite (spec.dimensionsMm "thickness") 2)) := by
        simp [setDimension]
      rw [hread]
      have hclamp : max 0.8 (asFinite
          (some (max 0.8 (asFinite (spec.dimensionsMm "thickness") 2))) 2) =
          max 0.8 (asFinite (spec.dimensionsMm "thickness") 2) := by
        show max 0.8 (max 0.8 (asFinite (spec.dimensionsMm "thickness") 2)) = _
        rw [← max_assoc, max_self]
      rw [hclamp]
      have hoc : (setDimension spec "thickness"
          (some (max 0.8 (asFinite (spec.dimensionsMm "thickness") 2)))).objectClass =
          spec.objectClass := rfl
      rw [hoc]
      by_cases hring : spec.objectClass = ObjectClass.ring
      · simp only [hring, if_pos rfl]
        exact buildRingTriangles_congr _ _ _ _ (by simp [setDimension]) (by simp [setDimension])
      · rw [if_neg hring, if_neg hring]
        exact buildFlatShapeTriangles_congr _ _ _ _ rfl rfl
          (by simp [setDimension]) (by simp [setDimension])
          (by simp [setDimension]) (by simp [setDimension])
    unfold generateStl
    rw [hsame]
    rfl
  · intro h
    rw [h]
    show max 0.8 (2 : ℝ) = 2
    exact max_eq_right (by norm_num)

/-- Witness for C5: a spec with no thickness entry at all; the theorem
applies and its clamp evaluates to 2, which is at least 0.8. -/
theorem c5_witness :
    generateStl [] (fun _ => []) (⟨ObjectClass.fidget_token, Shape.star,
        fun _ => none, fun _ => none⟩ : ModelSpec) =
      generateStl [] (fun _ => []) (setDimension (⟨ObjectClass.fidget_token, Shape.star,
        fun _ => none, fun _ => none⟩ : ModelSpec) "thickness"
        (some (max 0.8 (asFinite ((⟨ObjectClass.fidget_token, Shape.star,
          fun _ => none, fun _ => none⟩ : ModelSpec).dimensionsMm "thickness") 2)))) ∧
    (0.8 : ℝ) ≤ max 0.8 (asFinite ((⟨ObjectClass.fidget_token, Shape.star,
      fun _ => none, fun _ => none⟩ : ModelSpec).dimensionsMm "thickness") 2) ∧
    max 0.8 (asFinite ((⟨ObjectClass.fidget_token, Shape.star,
      fun _ => none, fun _ => none⟩ : ModelSpec).dimensionsMm "thickness") 2) = 2 := by
  have h := c5_thickness_clamp [] (fun _ => []) (⟨ObjectClass.fidget_token, Shape.star,
    fun _ => none, fun _ => none⟩ : ModelSpec)
  exact ⟨h.1, h.2.1, h.2.2 rfl⟩

/-- C10: for a spec whose height entry is missing (or non-finite), the flat
shape builder's effective height is the effective width: replacing the absent
height by the effective width leaves the mesh unchanged.  The effective width
itself falls back from `width` to `outer_diameter` to 24. -/
theorem c10_height_falls_back_to_width (earcutResult : List (ℕ × ℕ × ℕ))
    (spec : ModelSpec) (thickness : ℝ)
    (h : spec.dimensionsMm "height" = none) :
    buildFlatShapeTriangles earcutResult spec thickness =
      buildFlatShapeTriangles earcutResult (setDimension spec "height"
        (some (asFinite (coalesce (spec.dimensionsMm "width")
          (spec.dimensionsMm "outer_diameter")) 24))) thickness ∧
    (∀ w, spec.dimensionsMm "width" = some w →
      asFinite (coalesce (spec.dimensionsMm "width")
        (spec.dimensionsMm "outer_diameter")) 24 = w) ∧
    (∀ d, spec.dimensionsMm "width" = none →
      spec.dimensionsMm "outer_diameter" = some d →
      asFinite (coalesce (spec.dimensionsMm "width")
        (spec.dimensionsMm "outer_diameter")) 24 = d) ∧
    (spec.dimensionsMm "width" = none → spec.dimensionsMm "outer_diameter" = none →
      asFinite (coalesce (spec.dimensionsMm "width")
        (spec.dimensionsMm "outer_diameter")) 24 = 24) := by
  refine ⟨?_, ?_, ?_, ?_⟩
  · unfold buildFlatShapeTriangles
    dsimp only
    have hw : (setDimension spec "height"
        (some (asFinite (coalesce (spec.dimensionsMm "width")
          (spec.dimensionsMm "outer_diameter")) 24))).dimensionsMm "width" =
        spec.dimensionsMm "width" := by simp [setDimension]
    have hod : (setDimension spec "height"
        (some (asFinite (coalesce (spec.dimensionsMm "width")
          (spec.dimensionsMm "outer_diameter")) 24))).dimensionsMm "outer_diameter" =
        spec.dimensionsMm "outer_diameter" := by simp [setDimension]
    have hhd : (setDimension spec "height"
        (some (asFinite (coalesce (spec.dimensionsMm "width")
          (spec.dimensionsMm "outer_diameter")) 24))).dimensionsMm "hole_diameter" =
        spec.dimensionsMm "hole_diameter" := by simp [setDimension]
    have hh : (setDimension spec "height"
        (some (asFinite (coalesce (spec.dimensionsMm "width")
          (spec.dimensionsMm "outer_diameter")) 24))).dimensionsMm "height" =
        some (asFinite (coalesce (spec.dimensionsMm "width")
          (spec.dimensionsMm "outer_diameter")) 24) := by simp [setDimension]
    rw [hw, hod, hhd, hh, h]
    rfl
  · intro w hw
    simp [asFinite, coalesce, hw]
  · intro d hw hod
    simp [asFinite, coalesce, hw, hod]
  · intro hw hod
    simp [asFinite, coalesce, hw, hod]

/-- Witness for C10: a pendant spec with `width = 30` and no height entry;
the theorem applies, the mesh is the one generated with height set to the
effective width, and the effective width evaluates to 30 (not 24). -/
theorem c10_witness :
    (⟨ObjectClass.pendant, Shape.star,
        fun k => if k = "width" then some 30 else none,
        fun _ => none⟩ : ModelSpec).dimensionsMm "height" = none ∧
    buildFlatShapeTriangles [] (⟨ObjectClass.pendant, Shape.star,
        fun k => if k = "width" then some 30 else none, fun _ => none⟩ : ModelSpec) 2 =
      buildFlatShapeTriangles [] (setDimension (⟨ObjectClass.pendant, Shape.star,
        fun k => if k = "width" then some 30 else none, fun _ => none⟩ : ModelSpec)
        "height" (some (asFinite (coalesce
          ((⟨ObjectClass.pendant, Shape.star,
            fun k => if k = "width" then some 30 else none,
            fun _ => none⟩ : ModelSpec).dimensionsMm "width")
          ((⟨ObjectClass.pendant, Shape.star,
            fun k => if k = "width" then some 30 else none,
            fun _ => none⟩ : ModelSpec).dimensionsMm "outer_diameter")) 24))) 2 ∧
    asFinite (coalesce
      ((⟨ObjectClass.pendant, Shape.star,
        fun k => if k = "width" then some 30 else none,
        fun _ => none⟩ : ModelSpec).dimensionsMm "width")
      ((⟨ObjectClass.pendant, Shape.star,
        fun k => if k = "width" then some 30 else none,
        fun _ => none⟩ : ModelSpec).dimensionsMm "outer_diameter")) 24 = 30 := by
  have hnone : (⟨ObjectClass.pendant, Shape.star,
      fun k => if k = "width" then some 30 else none,
      fun _ => none⟩ : ModelSpec).dimensionsMm "height" = none := by simp
  have h := c10_height_falls_back_to_width [] (⟨ObjectClass.pendant, Shape.star,
    fun k => if k = "width" then some 30 else none, fun _ => none⟩ : ModelSpec) 2 hnone
  exact ⟨hnone, h.1, h.2.1 30 (by simp)⟩

/-- C7: for the earring scenario spec (earring, heart, width 20, height 20,
thickness 2, hole_diameter 2), `generateStl` builds the mesh from the heart
outline with exactly one hole loop — a 48-point circle of diameter 2 centred
at (0, 7.6) — at effective thickness 2; the mesh is non-empty for every
triangulator result; the file name is `earring-heart.stl`; and the serialized
text starts with `solid earring-heart` and ends with `endsolid earring-heart`. -/
theorem c7_earring_scenario (earcutResult : List (ℕ × ℕ × ℕ)) (fmt : ℝ → List Char) :
    generateTriangles earcutResult earringSpec =
      extrudePolygon earcutResult (heartOutline 20 20)
        [circlePoints 1 1 48 ⟨0, 7.6⟩] 2 ∧
    (circlePoints 1 1 48 (⟨0, 7.6⟩ : Vec2)).length = 48 ∧
    0 < (generateTriangles earcutResult earringSpec).length ∧
    (generateStl earcutResult fmt earringSpec).fileName = "earring-heart.stl".toList ∧
    (∃ tail, (generateStl earcutResult fmt earringSpec).stlAscii =
      "solid earring-heart".toList ++ tail) ∧
    (∃ front, (generateStl earcutResult fmt earringSpec).stlAscii =
      front ++ "endsolid earring-heart".toList) := by
  have hT : max 0.8 (asFinite (earringSpec.dimensionsMm "thickness") 2) = 2 := by
    have h : earringSpec.dimensionsMm "thickness" = some 2 := by simp [earringSpec]
    rw [h]
    show max (0.8 : ℝ) 2 = 2
    exact max_eq_right (by norm_num)
  have hwidth : asFinite (coalesce (earringSpec.dimensionsMm "width")
      (earringSpec.dimensionsMm "outer_diameter")) 24 = 20 := by
    have h : earringSpec.dimensionsMm "width" = some 20 := by simp [earringSpec]
    rw [h]
    rfl
  have hheight : asFinite (earringSpec.dimensionsMm "height") 20 = 20 := by
    have h : earringSpec.dimensionsMm "height" = some 20 := by simp [earringSpec]
    rw [h]
    rfl
  have hHD : max 1.6 (asFinite (earringSpec.dimensionsMm "hole_diameter") 2) = 2 := by
    have h : earringSpec.dimensionsMm "hole_diameter" = some 2 := by simp [earringSpec]
    rw [h]
    show max (1.6 : ℝ) 2 = 2
    exact max_eq_right (by norm_num)
  have hCY : (20 : ℝ) / 2 - max (2 * 1.2) 2 = 7.6 := by
    rw [max_eq_left (by norm_num)]
    norm_num
  have hmesh : generateTriangles earcutResult earringSpec =
      extrudePolygon earcutResult (heartOutline 20 20)
        [circlePoints 1 1 48 ⟨0, 7.6⟩] 2 := by
    unfold generateTriangles
    dsimp only
    rw [hT, if_neg (by simp [earringSpec])]
    unfold buildFlatShapeTriangles
    dsimp only
    rw [hwidth, hheight, hHD]
    rw [if_neg (by simp [earringSpec]), if_pos (Or.inl (by simp [earringSpec])),
      if_neg (by simp [earringSpec])]
    have hshape : shapeOutline earringSpec.shape 20 20 = heartOutline 20 20 := rfl
    rw [hshape, List.append_nil]
    norm_num [hCY]
  refine ⟨hmesh, circlePoints_length 1 1 48 _, ?_, ?_, ?_, ?_⟩
  · rw [hmesh, extrudePolygon_length, heartOutline_length]
    simp [circlePoints_length]
  · show sanitiseFileStem (renderObjectClass earringSpec.objectClass ++
      '-' :: renderShape earringSpec.shape) ++ ".stl".toList = "earring-heart.stl".toList
    decide
  · have hstl : (generateStl earcutResult fmt earringSpec).stlAscii =
        writeAsciiStl fmt "earring-heart".toList (generateTriangles earcutResult earringSpec) := by
      show writeAsciiStl fmt (stripStlSuffix (sanitiseFileStem
        (renderObjectClass earringSpec.objectClass ++ '-' :: renderShape earringSpec.shape) ++
          ".stl".toList)) (generateTriangles earcutResult earringSpec) = _
      have hname : stripStlSuffix (sanitiseFileStem
          (renderObjectClass earringSpec.objectClass ++ '-' :: renderShape earringSpec.shape) ++
            ".stl".toList) = "earring-heart".toList := by decide
      rw [hname]
    rw [hstl]
    unfold writeAsciiStl
    have hfirst : "solid ".toList ++ "earring-heart".toList = "solid earring-heart".toList := by
      decide
    rw [hfirst]
    exact joinLines_head_prefix _ _
  · have hstl : (generateStl earcutResult fmt earringSpec).stlAscii =
        writeAsciiStl fmt "earring-heart".toList (generateTriangles earcutResult earringSpec) := by
      show writeAsciiStl fmt (stripStlSuffix (sanitiseFileStem
        (renderObjectClass earringSpec.objectClass ++ '-' :: renderShape earringSpec.shape) ++
          ".stl".toList)) (generateTriangles earcutResult earringSpec) = _
      have hname : stripStlSuffix (sanitiseFileStem
          (renderObjectClass earringSpec.objectClass ++ '-' :: renderShape earringSpec.shape) ++
            ".stl".toList) = "earring-heart".toList := by decide
      rw [hname]
    rw [hstl]
    unfold writeAsciiStl
    have hlast : "endsolid ".toList ++ "earring-heart".toList =
        "endsolid earring-heart".toList := by decide
    rw [hlast]
    have hsplit : ("solid ".toList ++ "earring-heart".toList) ::
        ((generateTriangles earcutResult earringSpec).flatMap (facetLines fmt) ++
          ["endsolid earring-heart".toList]) =
        (("solid ".toList ++ "earring-heart".toList) ::
          (generateTriangles earcutResult earringSpec).flatMap (facetLines fmt)) ++
          ["endsolid earring-heart".toList] := by
      simp
    rw [hsplit]
    exact joinLines_concat_suffix _ _

lemma foldl_add_eq (f : ℕ → ℝ) (l : List ℕ) (c : ℝ) :
    l.foldl (fun total index => total + f index) c = c + (l.map f).sum := by
  induction l generalizing c with
  | nil => simp
  | cons a l ih =>
    rw [List.foldl_cons, ih, List.map_cons, List.sum_cons]
    ring

lemma map_range_sum (f : ℕ → ℝ) (n : ℕ) :
    ((List.range n).map f).sum = ∑ i in Finset.range n, f i := by
  induction n with
  | zero => simp
  | succ n ih =>
    rw [List.range_succ, List.map_append, List.sum_append, Finset.sum_range_succ, ih]
    simp

lemma signedArea_eq_sum (points : List Vec2) :
    signedArea points = (∑ i in Finset.range points.length, shoelaceTerm points i) / 2 := by
  unfold signedArea
  rw [foldl_add_eq, map_range_sum, zero_add]

lemma getD_reverse (l : List Vec2) (i : ℕ) (h : i < l.length) (d : Vec2) :
    l.reverse.getD i d = l.getD (l.length - 1 - i) d := by
  have h' : i < l.reverse.length := by simpa using h
  rw [List.getD_eq_getElem _ _ h', List.getElem_reverse h',
    List.getD_eq_getElem _ _ (by omega)]

lemma shoelaceTerm_reverse (points : List Vec2) (i : ℕ) (h : i < points.length) :
    shoelaceTerm points.reverse i =
      -shoelaceTerm points
        (if i = points.length - 1 then points.length - 1 else points.length - 2 - i) := by
  unfold shoelaceTerm
  dsimp only
  by_cases hi : i = points.length - 1
  · rw [if_pos hi]
    have e1 : (i + 1) % points.reverse.length = 0 := by
      have : i + 1 = points.length := by omega
      rw [List.length_reverse, this, Nat.mod_self]
    have e2 : (points.length - 1 + 1) % points.length = 0 := by
      have : points.length - 1 + 1 = points.length := by omega
      rw [this, Nat.mod_self]
    rw [e1, e2, getD_reverse _ _ h, getD_reverse _ _ (by omega)]
    have e3 : points.length - 1 - i = 0 := by omega
    have e4 : points.length - 1 - 0 = points.length - 1 := by omega
    rw [e3, e4]
    ring
  · rw [if_neg hi]
    have hn2 : 2 ≤ points.length := by omega
    have e1 : (i + 1) % points.reverse.length = i + 1 := by
      rw [List.length_reverse]
      exact Nat.mod_eq_of_lt (by omega)
    have e2 : (points.length - 2 - i + 1) % points.length = points.length - 2 - i + 1 :=
      Nat.mod_eq_of_lt (by omega)
    rw [e1, e2, getD_reverse _ _ h, getD_reverse _ _ (by omega)]
    have e3 : points.length - 1 - i = points.length - 2 - i + 1 := by omega
    have e4 : points.length - 1 - (i + 1) = points.length - 2 - i := by omega
    rw [e3, e4]
    ring

lemma signedArea_reverse (points : List Vec2) :
    signedArea points.reverse = -signedArea points := by
  rw [signedArea_eq_sum, signedArea_eq_sum, List.length_reverse, ← neg_div]
  congr 1
  rw [← Finset.sum_neg_distrib]
  exact Finset.sum_nbij'
    (fun i => if i = points.length - 1 then points.length - 1 else points.length - 2 - i)
    (fun i => if i = points.length - 1 then points.length - 1 else points.length - 2 - i)
    (fun a ha => by
      simp only [Finset.mem_range] at ha ⊢
      split <;> omega)
    (fun a ha => by
      simp only [Finset.mem_range] at ha ⊢
      split <;> omega)
    (fun a ha => by
      simp only [Finset.mem_range] at ha
      dsimp only
      by_cases h1 : a = points.length - 1
      · rw [if_pos h1, if_pos rfl, h1]
      · rw [if_neg h1, if_neg (by omega)]
        omega)
    (fun a ha => by
      simp only [Finset.mem_range] at ha
      dsimp only
      by_cases h1 : a = points.length - 1
      · rw [if_pos h1, if_pos rfl, h1]
      · rw [if_neg h1, if_neg (by omega)]
        omega)
    (fun a ha => by
      simp only [Finset.mem_range] at ha
      exact shoelaceTerm_reverse points a ha)

lemma enforceOrientation_match (points : List Vec2) (clockwise : Bool)
    (h : decide (signedArea points < 0) = clockwise) :
    enforceOrientation points clockwise = points := by
  unfold enforceOrientation
  rw [if_pos h]

lemma enforceOrientation_mismatch (points : List Vec2) (clockwise : Bool)
    (h : decide (signedArea points < 0) ≠ clockwise) :
    enforceOrientation points clockwise = points.reverse := by
  unfold enforceOrientation
  rw [if_neg h]

lemma enforceOrientation_idem (points : List Vec2) (clockwise : Bool)
    (h : signedArea points ≠ 0) :
    enforceOrientation (enforceOrientation points clockwise) clockwise =
      enforceOrientation points clockwise := by
  by_cases hm : decide (signedArea points < 0) = clockwise
  · rw [enforceOrientation_match points clockwise hm, enforceOrientation_match points clockwise hm]
  · rw [enforceOrientation_mismatch points clockwise hm]
    apply enforceOrientation_match
    rw [signedArea_reverse]
    cases clockwise with
    | true =>
      have hpos : 0 < signedArea points := by
        rcases lt_trichotomy (signedArea points) 0 with hlt | heq | hgt
        · exact absurd (by simpa using hlt) hm
        · exact absurd heq h
        · exact hgt
      simpa using hpos
    | false =>
      have hneg : signedArea points < 0 := by
        by_contra hge
        exact hm (by simpa using hge)
      simp [not_lt]
      linarith

/-- C8: for every loop with nonzero shoelace signed area,
`enforceOrientation(loop, wantClockwise)` returns the loop unchanged when its
winding (negative signed area = clockwise) matches `wantClockwise` and the
reversed sequence otherwise; the result then winds as requested; and the
extruder's orientation pass (outer loop with `wantClockwise = false`, every
hole with `wantClockwise = true`) is exactly what `extrudePolygon` applies
before triangulation and wall generation: pre-orienting loops of nonzero area
this way leaves its output unchanged. -/
theorem c8_orientation (points : List Vec2) (clockwise : Bool)
    (h : signedArea points ≠ 0) :
    ((signedArea points < 0 ↔ clockwise = true) →
      enforceOrientation points clockwise = points) ∧
    (¬(signedArea points < 0 ↔ clockwise = true) →
      enforceOrientation points clockwise = points.reverse) ∧
    (signedArea (enforceOrientation points clockwise) < 0 ↔ clockwise = true) ∧
    (∀ (earcutResult : List (ℕ × ℕ × ℕ)) (outerRaw : List Vec2)
      (holesRaw : List (List Vec2)) (thickness : ℝ),
      signedArea outerRaw ≠ 0 → (∀ hole ∈ holesRaw, signedArea hole ≠ 0) →
      extrudePolygon earcutResult outerRaw holesRaw thickness =
        extrudePolygon earcutResult (enforceOrientation outerRaw false)
          (holesRaw.map (fun hole => enforceOrientation hole true)) thickness) := by
  refine ⟨?_, ?_, ?_, ?_⟩
  · intro hiff
    apply enforceOrientation_match
    cases clockwise with
    | true =>
      simp only [decide_eq_true_eq]
      exact hiff.mpr rfl
    | false =>
      simp only [decide_eq_false_iff_not]
      intro hlt
      exact absurd (hiff.mp hlt) (by simp)
  · intro hiff
    apply enforceOrientation_mismatch
    cases clockwise with
    | true =>
      simp only [ne_eq, decide_eq_true_eq]
      intro hlt
      exact hiff (iff_of_true hlt rfl)
    | false =>
      simp only [ne_eq, decide_eq_false_iff_not, not_not]
      by_contra hnlt
      exact hiff (iff_of_false hnlt (by simp))
  · by_cases hm : decide (signedArea points < 0) = clockwise
    · rw [enforceOrientation_match points clockwise hm]
      cases clockwise with
      | true =>
        simp only [decide_eq_true_eq] at hm
        exact iff_of_true hm rfl
      | false =>
        simp only [decide_eq_false_iff_not] at hm
        exact iff_of_false hm (by simp)
    · rw [enforceOrientation_mismatch points clockwise hm, signedArea_reverse]
      cases clockwise with
      | true =>
        simp only [ne_eq, decide_eq_true_eq] at hm
        have hpos : 0 < signedArea points := by
          rcases lt_trichotomy (signedArea points) 0 with hlt | heq | hgt
          · exact absurd hlt hm
          · exact absurd heq h
          · exact hgt
        exact iff_of_true (by linarith) rfl
      | false =>
        simp only [ne_eq, decide_eq_false_iff_not, not_not] at hm
        exact iff_of_false (by simp only [not_lt]; linarith) (by simp)
  · intro earcutResult outerRaw holesRaw thickness houter hholes
    unfold extrudePolygon
    dsimp only
    rw [enforceOrientation_idem outerRaw false houter]
    have hmap : (holesRaw.map (fun hole => enforceOrientation hole true)).map
        (fun hole => enforceOrientation hole true) =
        holesRaw.map (fun hole => enforceOrientation hole true) := by
      rw [List.map_map]
      apply List.map_congr_left
      intro hole hm
      exact enforceOrientation_idem hole true (hholes hole hm)
    rw [hmap]

/-- Witness for C8: the counter-clockwise triangle (0,0), (2,0), (0,2) has
signed area 2 ≠ 0, and with `wantClockwise = false` it is returned
unchanged. -/
theorem c8_witness :
    signedArea [(⟨0, 0⟩ : Vec2), ⟨2, 0⟩, ⟨0, 2⟩] ≠ 0 ∧
    enforceOrientation [(⟨0, 0⟩ : Vec2), ⟨2, 0⟩, ⟨0, 2⟩] false =
      [(⟨0, 0⟩ : Vec2), ⟨2, 0⟩, ⟨0, 2⟩] := by
  have harea : signedArea [(⟨0, 0⟩ : Vec2), ⟨2, 0⟩, ⟨0, 2⟩] = 2 := by
    simp [signedArea, shoelaceTerm, List.range_succ]
  have hne : signedArea [(⟨0, 0⟩ : Vec2), ⟨2, 0⟩, ⟨0, 2⟩] ≠ 0 := by
    rw [harea]; norm_num
  refine ⟨hne, (c8_orientation [(⟨0, 0⟩ : Vec2), ⟨2, 0⟩, ⟨0, 2⟩] false hne).1 ?_⟩
  rw [harea]
  simp

lemma foldl_max_init_le : ∀ (l : List ℝ) (a : ℝ), a ≤ l.foldl max a := by
  intro l
  induction l with
  | nil => intro a; simp
  | cons x xs ih => intro a; exact le_trans (le_max_left a x) (ih (max a x))

lemma le_foldl_max_of_mem : ∀ (l : List ℝ) (a x : ℝ), x ∈ l → x ≤ l.foldl max a := by
  intro l
  induction l with
  | nil => intro a x hx; simp at hx
  | cons y ys ih =>
    intro a x hx
    rcases List.mem_cons.mp hx with h | h
    · subst h
      exact le_trans (le_max_right a x) (foldl_max_init_le ys (max a x))
    · exact ih (max a y) x h

lemma foldl_max_le : ∀ (l : List ℝ) (a b : ℝ), a ≤ b → (∀ x ∈ l, x ≤ b) →
    l.foldl max a ≤ b := by
  intro l
  induction l with
  | nil => intro a b ha _; simpa using ha
  | cons y ys ih =>
    intro a b ha h
    exact ih (max a y) b (max_le ha (h y (List.mem_cons_self y ys)))
      (fun x hx => h x (List.mem_cons_of_mem y hx))

lemma foldl_min_le_init : ∀ (l : List ℝ) (a : ℝ), l.foldl min a ≤ a := by
  intro l
  induction l with
  | nil => intro a; simp
  | cons x xs ih => intro a; exact le_trans (ih (min a x)) (min_le_left a x)

lemma foldl_min_le_of_mem : ∀ (l : List ℝ) (a x : ℝ), x ∈ l → l.foldl min a ≤ x := by
  intro l
  induction l with
  | nil => intro a x hx; simp at hx
  | cons y ys ih =>
    intro a x hx
    rcases List.mem_cons.mp hx with h | h
    · subst h
      exact le_trans (foldl_min_le_init ys (min a x)) (min_le_right a x)
    · exact ih (min a y) x h

lemma le_foldl_min : ∀ (l : List ℝ) (a b : ℝ), b ≤ a → (∀ x ∈ l, b ≤ x) →
    b ≤ l.foldl min a := by
  intro l
  induction l with
  | nil => intro a b ha _; simpa using ha
  | cons y ys ih =>
    intro a b ha h
    exact ih (min a y) b (le_min ha (h y (List.mem_cons_self y ys)))
      (fun x hx => h x (List.mem_cons_of_mem y hx))

lemma le_listMax (l : List ℝ) (x : ℝ) (hx : x ∈ l) : x ≤ listMax l := by
  cases l with
  | nil => simp at hx
  | cons y ys =>
    show x ≤ ys.foldl max y
    rcases List.mem_cons.mp hx with h | h
    · subst h; exact foldl_max_init_le ys x
    · exact le_foldl_max_of_mem ys y x h

lemma listMax_le (l : List ℝ) (b : ℝ) (hne : l ≠ []) (h : ∀ x ∈ l, x ≤ b) :
    listMax l ≤ b := by
  cases l with
  | nil => exact absurd rfl hne
  | cons y ys =>
    show ys.foldl max y ≤ b
    exact foldl_max_le ys y b (h y (List.mem_cons_self y ys))
      (fun x hx => h x (List.mem_cons_of_mem y hx))

lemma listMin_le (l : List ℝ) (x : ℝ) (hx : x ∈ l) : listMin l ≤ x := by
  cases l with
  | nil => simp at hx
  | cons y ys =>
    show ys.foldl min y ≤ x
    rcases List.mem_cons.mp hx with h | h
    · subst h; exact foldl_min_le_init ys x
    · exact foldl_min_le_of_mem ys y x h

lemma le_listMin (l : List ℝ) (b : ℝ) (hne : l ≠ []) (h : ∀ x ∈ l, b ≤ x) :
    b ≤ listMin l := by
  cases l with
  | nil => exact absurd rfl hne
  | cons y ys =>
    show b ≤ ys.foldl min y
    exact le_foldl_min ys y b (h y (List.mem_cons_self y ys))
      (fun x hx => h x (List.mem_cons_of_mem y hx))

lemma foldl_max_mem : ∀ (l : List ℝ) (a : ℝ), l.foldl max a = a ∨ l.foldl max a ∈ l := by
  intro l
  induction l with
  | nil => intro a; left; rfl
  | cons x xs ih =>
    intro a
    rcases ih (max a x) with h | h
    · rcases max_choice a x with hm | hm
      · left; rw [List.foldl_cons, h, hm]
      · right; rw [List.foldl_cons, h, hm]; exact List.mem_cons_self x xs
    · right; exact List.mem_cons_of_mem x h

lemma foldl_min_mem : ∀ (l : List ℝ) (a : ℝ), l.foldl min a = a ∨ l.foldl min a ∈ l := by
  intro l
  induction l with
  | nil => intro a; left; rfl
  | cons x xs ih =>
    intro a
    rcases ih (min a x) with h | h
    · rcases min_choice a x with hm | hm
      · left; rw [List.foldl_cons, h, hm]
      · right; rw [List.foldl_cons, h, hm]; exact List.mem_cons_self x xs
    · right; exact List.mem_cons_of_mem x h

lemma listMax_mem (l : List ℝ) (hne : l ≠ []) : listMax l ∈ l := by
  cases l with
  | nil => exact absurd rfl hne
  | cons y ys =>
    show ys.foldl max y ∈ y :: ys
    rcases foldl_max_mem ys y with h | h
    · rw [h]; exact List.mem_cons_self y ys
    · exact List.mem_cons_of_mem y h

lemma listMin_mem (l : List ℝ) (hne : l ≠ []) : listMin l ∈ l := by
  cases l with
  | nil => exact absurd rfl hne
  | cons y ys =>
    show ys.foldl min y ∈ y :: ys
    rcases foldl_min_mem ys y with h | h
    · rw [h]; exact List.mem_cons_self y ys
    · exact List.mem_cons_of_mem y h

lemma listMax_map_mono (f : ℝ → ℝ) (hf : Monotone f) (l : List ℝ) (hne : l ≠ []) :
    listMax (l.map f) = f (listMax l) := by
  apply le_antisymm
  · apply listMax_le _ _ (by simpa using hne)
    intro x hx
    obtain ⟨t, ht, rfl⟩ := List.mem_map.mp hx
    exact hf (le_listMax l t ht)
  · exact le_listMax _ _ (List.mem_map.mpr ⟨listMax l, listMax_mem l hne, rfl⟩)

lemma listMin_map_mono (f : ℝ → ℝ) (hf : Monotone f) (l : List ℝ) (hne : l ≠ []) :
    listMin (l.map f) = f (listMin l) := by
  apply le_antisymm
  · exact listMin_le _ _ (List.mem_map.mpr ⟨listMin l, listMin_mem l hne, rfl⟩)
  · apply le_listMin _ _ (by simpa using hne)
    intro x hx
    obtain ⟨t, ht, rfl⟩ := List.mem_map.mp hx
    exact hf (listMin_le l t ht)

lemma listMax_map_eq_of (l : List ℕ) (f : ℕ → ℝ) (b : ℝ) (hne : l ≠ [])
    (hub : ∀ i ∈ l, f i ≤ b) (hmem : ∃ i ∈ l, f i = b) : listMax (l.map f) = b := by
  apply le_antisymm
  · apply listMax_le _ _ (by simpa using hne)
    intro x hx
    obtain ⟨i, hi, rfl⟩ := List.mem_map.mp hx
    exact hub i hi
  · obtain ⟨i, hi, hfi⟩ := hmem
    rw [← hfi]
    exact le_listMax _ _ (List.mem_map.mpr ⟨i, hi, rfl⟩)

lemma listMin_map_eq_of (l : List ℕ) (f : ℕ → ℝ) (b : ℝ) (hne : l ≠ [])
    (hlb : ∀ i ∈ l, b ≤ f i) (hmem : ∃ i ∈ l, f i = b) : listMin (l.map f) = b := by
  apply le_antisymm
  · obtain ⟨i, hi, hfi⟩ := hmem
    rw [← hfi]
    exact listMin_le _ _ (List.mem_map.mpr ⟨i, hi, rfl⟩)
  · apply le_listMin _ _ (by simpa using hne)
    intro x hx
    obtain ⟨i, hi, rfl⟩ := List.mem_map.mp hx
    exact hlb i hi

lemma map_map_proj_x (l : List ℕ) (f : ℕ → Vec2) :
    (l.map f).map (fun point => point.x) = l.map (fun i => (f i).x) := by
  rw [List.map_map]
  rfl

lemma map_map_proj_y (l : List ℕ) (f : ℕ → Vec2) :
    (l.map f).map (fun point => point.y) = l.map (fun i => (f i).y) := by
  rw [List.map_map]
  rfl

lemma circlePoints96_bbox (rx ry : ℝ) (hrx : 0 < rx) (hry : 0 < ry) :
    bboxWidth (circlePoints rx ry 96 ⟨0, 0⟩) = 2 * rx ∧
    bboxHeight (circlePoints rx ry 96 ⟨0, 0⟩) = 2 * ry := by
  constructor
  · unfold bboxWidth circlePoints
    rw [map_map_proj_x]
    dsimp only
    simp only [zero_add]
    have hmax : listMax ((List.range 96).map (fun (i : ℕ) =>
        rx * Real.cos ((i : ℝ) / ((96 : ℕ) : ℝ) * Real.pi * 2))) = rx := by
      apply listMax_map_eq_of _ _ _ (by simp)
      · intro i hi
        have hcos := Real.cos_le_one ((i : ℝ) / ((96 : ℕ) : ℝ) * Real.pi * 2)
        nlinarith
      · refine ⟨0, List.mem_range.mpr (by norm_num), ?_⟩
        have h0 : ((0 : ℕ) : ℝ) / ((96 : ℕ) : ℝ) * Real.pi * 2 = 0 := by
          push_cast
          ring
        rw [h0, Real.cos_zero, mul_one]
    have hmin : listMin ((List.range 96).map (fun (i : ℕ) =>
        rx * Real.cos ((i : ℝ) / ((96 : ℕ) : ℝ) * Real.pi * 2))) = -rx := by
      apply listMin_map_eq_of _ _ _ (by simp)
      · intro i hi
        have hcos := Real.neg_one_le_cos ((i : ℝ) / ((96 : ℕ) : ℝ) * Real.pi * 2)
        nlinarith
      · refine ⟨48, List.mem_range.mpr (by norm_num), ?_⟩
        have h48 : ((48 : ℕ) : ℝ) / ((96 : ℕ) : ℝ) * Real.pi * 2 = Real.pi := by
          push_cast
          ring
        rw [h48, Real.cos_pi]
        ring
    rw [hmax, hmin]
    ring
  · unfold bboxHeight circlePoints
    rw [map_map_proj_y]
    dsimp only
    simp only [zero_add]
    have hmax : listMax ((List.range 96).map (fun (i : ℕ) =>
        ry * Real.sin ((i : ℝ) / ((96 : ℕ) : ℝ) * Real.pi * 2))) = ry := by
      apply listMax_map_eq_of _ _ _ (by simp)
      · intro i hi
        have hsin := Real.sin_le_one ((i : ℝ) / ((96 : ℕ) : ℝ) * Real.pi * 2)
        nlinarith
      · refine ⟨24, List.mem_range.mpr (by norm_num), ?_⟩
        have h24 : ((24 : ℕ) : ℝ) / ((96 : ℕ) : ℝ) * Real.pi * 2 = Real.pi / 2 := by
          push_cast
          ring
        rw [h24, Real.sin_pi_div_two, mul_one]
    have hmin : listMin ((List.range 96).map (fun (i : ℕ) =>
        ry * Real.sin ((i : ℝ) / ((96 : ℕ) : ℝ) * Real.pi * 2))) = -ry := by
      apply listMin_map_eq_of _ _ _ (by simp)
      · intro i hi
        have hsin := Real.neg_one_le_sin ((i : ℝ) / ((96 : ℕ) : ℝ) * Real.pi * 2)
        nlinarith
      · refine ⟨72, List.mem_range.mpr (by norm_num), ?_⟩
        have h72 : ((72 : ℕ) : ℝ) / ((96 : ℕ) : ℝ) * Real.pi * 2 = Real.pi / 2 + Real.pi := by
          push_cast
          ring
        rw [h72, Real.sin_add_pi, Real.sin_pi_div_two]
        ring
    rw [hmax, hmin]
    ring

lemma heartMaxX_ge : (16 : ℝ) ≤ heartMaxX := by
  unfold heartMaxX heartRaw
  rw [map_map_proj_x]
  dsimp only
  apply le_listMax
  apply List.mem_map.mpr
  refine ⟨30, List.mem_range.mpr (by norm_num), ?_⟩
  have h30 : ((30 : ℕ) : ℝ) / (120 : ℝ) * Real.pi * 2 = Real.pi / 2 := by
    push_cast
    ring
  rw [h30, Real.sin_pi_div_two]
  norm_num

lemma heartMinX_le : heartMinX ≤ 0 := by
  unfold heartMinX heartRaw
  rw [map_map_proj_x]
  dsimp only
  apply listMin_le
  apply List.mem_map.mpr
  refine ⟨0, List.mem_range.mpr (by norm_num), ?_⟩
  have h0 : ((0 : ℕ) : ℝ) / (120 : ℝ) * Real.pi * 2 = 0 := by
    push_cast
    ring
  rw [h0, Real.sin_zero]
  norm_num

lemma heartMaxY_ge : (5 : ℝ) ≤ heartMaxY := by
  unfold heartMaxY heartRaw
  rw [map_map_proj_y]
  dsimp only
  apply le_listMax
  apply List.mem_map.mpr
  refine ⟨0, List.mem_range.mpr (by norm_num), ?_⟩
  have h0 : ((0 : ℕ) : ℝ) / (120 : ℝ) * Real.pi * 2 = 0 := by
    push_cast
    ring
  rw [h0]
  norm_num [Real.cos_zero]

lemma heartMinY_le : heartMinY ≤ -17 := by
  unfold heartMinY heartRaw
  rw [map_map_proj_y]
  dsimp only
  apply listMin_le
  apply List.mem_map.mpr
  refine ⟨60, List.mem_range.mpr (by norm_num), ?_⟩
  have h60 : ((60 : ℕ) : ℝ) / (120 : ℝ) * Real.pi * 2 = Real.pi := by
    push_cast
    ring
  rw [h60]
  have h3 : Real.cos (3 * Real.pi) = -1 := by
    have e : (3 : ℝ) * Real.pi = Real.pi + 2 * Real.pi := by ring
    rw [e, Real.cos_add_two_pi, Real.cos_pi]
  have h4 : Real.cos (4 * Real.pi) = 1 := by
    have e : (4 : ℝ) * Real.pi = 2 * Real.pi + 2 * Real.pi := by ring
    rw [e, Real.cos_add_two_pi, Real.cos_two_pi]
  rw [Real.cos_pi, Real.cos_two_pi, h3, h4]
  norm_num

lemma heartX_gap : 0 < heartMaxX - heartMinX := by
  have h1 := heartMaxX_ge
  have h2 := heartMinX_le
  linarith

lemma heartY_gap : 0 < heartMaxY - heartMinY := by
  have h1 := heartMaxY_ge
  have h2 := heartMinY_le
  linarith

lemma heartSourceWidth_eq : heartSourceWidth = heartMaxX - heartMinX := by
  unfold heartSourceWidth jsOr
  rw [if_neg (ne_of_gt heartX_gap)]

lemma heartSourceHeight_eq : heartSourceHeight = heartMaxY - heartMinY := by
  unfold heartSourceHeight jsOr
  rw [if_neg (ne_of_gt heartY_gap)]

lemma heartOutline_bbox (width height : ℝ) (hw : 0 < width) (hh : 0 < height) :
    bboxWidth (heartOutline width height) = width ∧
    bboxHeight (heartOutline width height) = height := by
  have hnex : heartRaw.map (fun (point : Vec2) => point.x) ≠ [] := by
    intro hc
    have hlen := congrArg List.length hc
    rw [List.length_map, heartRaw_length] at hlen
    simp at hlen
  have hney : heartRaw.map (fun (point : Vec2) => point.y) ≠ [] := by
    intro hc
    have hlen := congrArg List.length hc
    rw [List.length_map, heartRaw_length] at hlen
    simp at hlen
  constructor
  · unfold bboxWidth heartOutline
    rw [List.map_map]
    have hcomp : ((fun (point : Vec2) => point.x) ∘ (fun (point : Vec2) =>
        (⟨((point.x - heartMinX) / heartSourceWidth - 0.5) * width,
          ((point.y - heartMinY) / heartSourceHeight - 0.5) * height⟩ : Vec2))) =
        ((fun t => ((t - heartMinX) / heartSourceWidth - 0.5) * width) ∘
          (fun (point : Vec2) => point.x)) := rfl
    rw [hcomp, ← List.map_map]
    have hmono : Monotone (fun t => ((t - heartMinX) / heartSourceWidth - 0.5) * width) := by
      intro a b hab
      have hsw : 0 < heartSourceWidth := by
        rw [heartSourceWidth_eq]
        exact heartX_gap
      have h1 : (a - heartMinX) / heartSourceWidth ≤ (b - heartMinX) / heartSourceWidth := by
        rw [div_eq_mul_inv, div_eq_mul_inv]
        exact mul_le_mul_of_nonneg_right (by linarith) (inv_nonneg.mpr hsw.le)
      have h2 := sub_le_sub_right h1 (0.5 : ℝ)
      exact mul_le_mul_of_nonneg_right h2 hw.le
    rw [listMax_map_mono _ hmono _ hnex, listMin_map_mono _ hmono _ hnex]
    show ((heartMaxX - heartMinX) / heartSourceWidth - 0.5) * width -
      ((heartMinX - heartMinX) / heartSourceWidth - 0.5) * width = width
    rw [heartSourceWidth_eq, div_self (ne_of_gt heartX_gap), sub_self, zero_div]
    ring
  · unfold bboxHeight heartOutline
    rw [List.map_map]
    have hcomp : ((fun (point : Vec2) => point.y) ∘ (fun (point : Vec2) =>
        (⟨((point.x - heartMinX) / heartSourceWidth - 0.5) * width,
          ((point.y - heartMinY) / heartSourceHeight - 0.5) * height⟩ : Vec2))) =
        ((fun t => ((t - heartMinY) / heartSourceHeight - 0.5) * height) ∘
          (fun (point : Vec2) => point.y)) := rfl
    rw [hcomp, ← List.map_map]
    have hmono : Monotone (fun t => ((t - heartMinY) / heartSourceHeight - 0.5) * height) := by
      intro a b hab
      have hsh : 0 < heartSourceHeight := by
        rw [heartSourceHeight_eq]
        exact heartY_gap
      have h1 : (a - heartMinY) / heartSourceHeight ≤ (b - heartMinY) / heartSourceHeight := by
        rw [div_eq_mul_inv, div_eq_mul_inv]
        exact mul_le_mul_of_nonneg_right (by linarith) (inv_nonneg.mpr hsh.le)
      have h2 := sub_le_sub_right h1 (0.5 : ℝ)
      exact mul_le_mul_of_nonneg_right h2 hh.le
    rw [listMax_map_mono _ hmono _ hney, listMin_map_mono _ hmono _ hney]
    show ((heartMaxY - heartMinY) / heartSourceHeight - 0.5) * height -
      ((heartMinY - heartMinY) / heartSourceHeight - 0.5) * height = height
    rw [heartSourceHeight_eq, div_self (ne_of_gt heartY_gap), sub_self, zero_div]
    ring

lemma roundedSquareOutline_length (width height : ℝ) :
    (roundedSquareOutline width height).length = 32 := by
  unfold roundedSquareOutline
  rw [List.length_flatMap]
  simp

lemma sin_nonpos_of_neg_pi_le_of_le_zero {x : ℝ} (h1 : -Real.pi ≤ x) (h2 : x ≤ 0) :
    Real.sin x ≤ 0 := by
  have h := Real.sin_nonneg_of_nonneg_of_le_pi (x := -x) (by linarith) (by linarith)
  rw [Real.sin_neg] at h
  linarith

lemma roundedSquare_y_bound :
    ∀ p ∈ roundedSquareOutline 10 10, p.y ≤ 3.6 ∧ -3.6 ≤ p.y := by
  intro p hp
  unfold roundedSquareOutline at hp
  dsimp only at hp
  rw [List.mem_flatMap] at hp
  obtain ⟨corner, hc, hpm⟩ := hp
  rw [List.mem_map] at hpm
  obtain ⟨step, hstep, rfl⟩ := hpm
  rw [List.mem_range] at hstep
  have hrad : max 0.8 (min (10 : ℝ) 10 * 0.14) = 1.4 := by
    rw [min_self]
    rw [show (10 : ℝ) * 0.14 = 1.4 by norm_num]
    exact max_eq_right (by norm_num)
  have ht0 : (0 : ℝ) ≤ (step : ℝ) / ((8 : ℕ) : ℝ) := by positivity
  have ht1 : (step : ℝ) / ((8 : ℕ) : ℝ) ≤ 1 := by
    have hs : (step : ℝ) ≤ 7 := by exact_mod_cast Nat.lt_succ_iff.mp hstep
    rw [div_le_one (by push_cast; norm_num)]
    push_cast
    linarith
  have hpi := Real.pi_pos
  fin_cases hc
  · dsimp only
    rw [hrad]
    set t := (step : ℝ) / ((8 : ℕ) : ℝ) with hts
    have hθub : -(Real.pi / 2) + (0 - -(Real.pi / 2)) * t ≤ 0 := by nlinarith
    have hθlb : -Real.pi ≤ -(Real.pi / 2) + (0 - -(Real.pi / 2)) * t := by nlinarith
    have hs1 := sin_nonpos_of_neg_pi_le_of_le_zero hθlb hθub
    have hs2 := Real.neg_one_le_sin (-(Real.pi / 2) + (0 - -(Real.pi / 2)) * t)
    constructor <;> nlinarith
  · dsimp only
    rw [hrad]
    set t := (step : ℝ) / ((8 : ℕ) : ℝ) with hts
    have hθlb : 0 ≤ (0 : ℝ) + (Real.pi / 2 - 0) * t := by nlinarith
    have hθub : (0 : ℝ) + (Real.pi / 2 - 0) * t ≤ Real.pi := by nlinarith
    have hs1 := Real.sin_nonneg_of_nonneg_of_le_pi hθlb hθub
    have hs2 := Real.sin_le_one ((0 : ℝ) + (Real.pi / 2 - 0) * t)
    constructor <;> nlinarith
  · dsimp only
    rw [hrad]
    set t := (step : ℝ) / ((8 : ℕ) : ℝ) with hts
    have hθlb : 0 ≤ Real.pi / 2 + (Real.pi - Real.pi / 2) * t := by nlinarith
    have hθub : Real.pi / 2 + (Real.pi - Real.pi / 2) * t ≤ Real.pi := by nlinarith
    have hs1 := Real.sin_nonneg_of_nonneg_of_le_pi hθlb hθub
    have hs2 := Real.sin_le_one (Real.pi / 2 + (Real.pi - Real.pi / 2) * t)
    constructor <;> nlinarith
  · dsimp only
    rw [hrad]
    set t := (step : ℝ) / ((8 : ℕ) : ℝ) with hts
    have hrewrite : Real.pi + (Real.pi * 3 / 2 - Real.pi) * t =
        (Real.pi * 3 / 2 - Real.pi) * t + Real.pi := by ring
    have hs1 : Real.sin (Real.pi + (Real.pi * 3 / 2 - Real.pi) * t) ≤ 0 := by
      rw [hrewrite, Real.sin_add_pi]
      have hsub0 : 0 ≤ (Real.pi * 3 / 2 - Real.pi) * t := by nlinarith
      have hsubpi : (Real.pi * 3 / 2 - Real.pi) * t ≤ Real.pi := by nlinarith
      have := Real.sin_nonneg_of_nonneg_of_le_pi hsub0 hsubpi
      linarith
    have hs2 := Real.neg_one_le_sin (Real.pi + (Real.pi * 3 / 2 - Real.pi) * t)
    constructor <;> nlinarith

lemma roundedSquare1010_bboxHeight_le :
    bboxHeight (roundedSquareOutline 10 10) ≤ 7.2 := by
  unfold bboxHeight
  have hne : (roundedSquareOutline 10 10).map (fun (point : Vec2) => point.y) ≠ [] := by
    intro hc
    have hlen := congrArg List.length hc
    rw [List.length_map, roundedSquareOutline_length] at hlen
    simp at hlen
  have hmax : listMax ((roundedSquareOutline 10 10).map (fun (point : Vec2) => point.y)) ≤
      3.6 := by
    apply listMax_le _ _ hne
    intro x hx
    obtain ⟨p, hp, rfl⟩ := List.mem_map.mp hx
    exact (roundedSquare_y_bound p hp).1
  have hmin : (-3.6 : ℝ) ≤
      listMin ((roundedSquareOutline 10 10).map (fun (point : Vec2) => point.y)) := by
    apply le_listMin _ _ hne
    intro x hx
    obtain ⟨p, hp, rfl⟩ := List.mem_map.mp hx
    exact (roundedSquare_y_bound p hp).2
  linarith

/-- C3 counterexample: for shape = rounded_square at requested width = height
= 10 (both positive), the outer loop's bounding-box height is at most 7.2 mm
(the corner arcs are swept from misplaced centres, so the outline never
reaches the top/bottom edges), which is not within 1e-3 of the requested
10 mm. -/
theorem c3_counterexample :
    ¬(|bboxWidth (shapeOutline Shape.rounded_square 10 10) - 10| ≤ 1 / 1000 ∧
      |bboxHeight (shapeOutline Shape.rounded_square 10 10) - 10| ≤ 1 / 1000) := by
  intro hcontra
  obtain ⟨_, h2⟩ := hcontra
  have hsh : shapeOutline Shape.rounded_square 10 10 = roundedSquareOutline 10 10 := rfl
  rw [hsh] at h2
  have hb := roundedSquare1010_bboxHeight_le
  rw [abs_le] at h2
  have := h2.1
  linarith

/-- C3 (amended): for the heart, circle and custom_outline shape families and
every positive requested width and height, the generated outer loop's
bounding box has exactly the requested width and height (hence within 1e-3
mm); the star, rounded_square and spinner outlines do not satisfy this. -/
theorem c3_bbox_heart_circle (shape : Shape) (width height : ℝ)
    (hw : 0 < width) (hh : 0 < height)
    (hs : shape = Shape.heart ∨ shape = Shape.circle ∨ shape = Shape.custom_outline) :
    bboxWidth (shapeOutline shape width height) = width ∧
    bboxHeight (shapeOutline shape width height) = height := by
  rcases hs with rfl | rfl | rfl
  · exact heartOutline_bbox width height hw hh
  · obtain ⟨h1, h2⟩ := circlePoints96_bbox (width / 2) (height / 2)
      (by linarith) (by linarith)
    have he : shapeOutline Shape.circle width height =
        circlePoints (width / 2) (height / 2) 96 ⟨0, 0⟩ := rfl
    rw [he, h1, h2]
    constructor <;> ring
  · obtain ⟨h1, h2⟩ := circlePoints96_bbox (width / 2) (height / 2)
      (by linarith) (by linarith)
    have he : shapeOutline Shape.custom_outline width height =
        circlePoints (width / 2) (height / 2) 96 ⟨0, 0⟩ := rfl
    rw [he, h1, h2]
    constructor <;> ring

/-- Witness for C3 (amended): the circle family at width = height = 2 has a
bounding box of exactly 2 × 2. -/
theorem c3_witness :
    (0 : ℝ) < 2 ∧ bboxWidth (shapeOutline Shape.circle 2 2) = 2 ∧
      bboxHeight (shapeOutline Shape.circle 2 2) = 2 := by
  have h := c3_bbox_heart_circle Shape.circle 2 2 (by norm_num) (by norm_num)
    (Or.inr (Or.inl rfl))
  exact ⟨by norm_num, h.1, h.2⟩

end StlMaker
